/-
  Verification of the tsuki CLI (Go) against its natural-language
  specification.  The Go functions under scrutiny are shallowly embedded
  as executable Lean definitions; machine-level details (process spawning,
  filesystem) are modelled as explicit inputs.

  Source files embedded here:
    - src/cli/internal/core/core.go        (Transpiler.Transpile / Check,
                                            parseWarnings)
    - src/cli/internal/build/build.go      (Run package gate, boardFQBN,
                                            sanitizeSketchName, check.Run)
    - src/cli/internal/flash/flash.go      (boardFQBN map, uploadArduinoCLI,
                                            detectPortArduinoCLI)
    - src/cli/internal/manifest/toml_decode.go (FetchAllRegistries)
    - src/unnamed/part_004 (config.go)     (Config.ResolvedRegistryURLs)
-/
import Mathlib

namespace Tsuki

/-! ## Generic string helpers mirroring Go's `strings` package -/

/-- `charsStartsWith pat l` is Go's `strings.HasPrefix` on rune lists. -/
def charsStartsWith : List Char → List Char → Bool
  | [], _ => true
  | _ :: _, [] => false
  | p :: ps, c :: cs => p == c && charsStartsWith ps cs

/-- `charsContains pat l` is Go's `strings.Contains` on rune lists:
`pat` occurs contiguously inside `l`. -/
def charsContains (pat : List Char) : List Char → Bool
  | [] => pat.isEmpty
  | c :: cs => charsStartsWith pat (c :: cs) || charsContains pat cs

/-- Go `strings.Contains s pat` on strings. -/
def strContains (s pat : String) : Bool :=
  charsContains pat.data s.data

/-- Split a rune list at every occurrence of `sep` (Go `strings.Split` with a
one-rune separator; splitting the empty string yields `[""]`, as in Go). -/
def splitOnChar (sep : Char) : List Char → List (List Char)
  | [] => [[]]
  | x :: xs =>
    let r := splitOnChar sep xs
    if x == sep then [] :: r
    else match r with
         | [] => [[x]]
         | h :: t => (x :: h) :: t

/-- Go `strings.Split s "\n"`. -/
def splitLines (s : String) : List String :=
  (splitOnChar '\n' s.data).map String.mk

/-- Go `strings.ToLower` (rune-wise lowering). -/
def strLower (s : String) : String := String.mk (s.data.map Char.toLower)

/-- White space recognised by Go's `strings.TrimSpace` / `strings.Fields`
(the ASCII subset, which is all the embedded code paths produce). -/
def isGoSpace (c : Char) : Bool :=
  c == ' ' || c == '\t' || c == '\n' || c == '\r'

/-- Go `strings.TrimSpace`. -/
def strTrim (s : String) : String :=
  String.mk (((s.data.dropWhile isGoSpace).reverse.dropWhile isGoSpace).reverse)

/-- Go `strings.Fields`: maximal runs of non-space runes. -/
def strFields (s : String) : List String :=
  ((splitOnChar ' ' (s.data.map (fun c => if isGoSpace c then ' ' else c))).map
    String.mk).filter (· ≠ "")

/-- Go `strings.HasPrefix`. -/
def strStartsWith (s pre : String) : Bool :=
  charsStartsWith pre.data s.data

/-- Go `strings.Join parts ","`. -/
def joinComma : List String → String
  | [] => ""
  | [s] => s
  | s :: rest => s ++ "," ++ joinComma rest

/-- Association-list lookup, modelling a Go `map[string]V` read. -/
def alookup {α : Type} : List (String × α) → String → Option α
  | [], _ => none
  | (k, v) :: rest, key => if key == k then some v else alookup rest key

/-- Go `%q` applied to a name with no characters needing escapes. -/
def goQuote (s : String) : String := "\"" ++ s ++ "\""

/-! ## `core.go`: `Transpiler.Transpile` argument construction (C1)

Embeds lines 54–67 of src/cli/internal/core/core.go:

```
args := []string{req.InputFile, req.OutputFile, "--board", req.Board}
if req.SourceMap { args = append(args, "--source-map") }
if req.LibsDir != "" { args = append(args, "--libs-dir", req.LibsDir) }
if len(req.PkgNames) > 0 {
    args = append(args, "--packages", strings.Join(req.PkgNames, ","))
}
```
-/

/-- `core.TranspileRequest`. -/
structure TranspileRequest where
  inputFile  : String
  outputFile : String
  board      : String
  sourceMap  : Bool
  libsDir    : String
  pkgNames   : List String

/-- The argument list `Transpiler.Transpile` hands to the core binary. -/
def transpileArgs (req : TranspileRequest) : List String :=
  let args := [req.inputFile, req.outputFile, "--board", req.board]
  let args := if req.sourceMap then args ++ ["--source-map"] else args
  let args := if req.libsDir == "" then args
              else args ++ ["--libs-dir", req.libsDir]
  if req.pkgNames.length > 0 then
    args ++ ["--packages", joinComma req.pkgNames]
  else args

/-! ## `core.go`: exit-code semantics and `parseWarnings` (C2)

Embeds lines 69–90 and 213–221 of src/cli/internal/core/core.go.
`cmd.Run()` returns a non-nil error exactly when the process exits with a
non-zero status; the process boundary is modelled as an explicit
`ProcResult` (exit code and captured stderr). -/

/-- Exit code and stderr of one run of the core binary. -/
structure ProcResult where
  exitCode  : Nat
  stderrOut : String

/-- `parseWarnings` (core.go:213): every stderr line whose lowercase form
contains "warning" is collected, trimmed, in order. -/
def parseWarnings (output : String) : List String :=
  (splitLines output).foldl
    (fun w line =>
      if strContains (strLower line) "warning" then w ++ [strTrim line] else w) []

/-- `Transpiler.Transpile` outcome (core.go:78–89): `none` (failure) exactly
when `cmd.Run` errors, i.e. the exit code is non-zero; otherwise the
warnings parsed from stderr. -/
def transpileOutcome (p : ProcResult) : Option (List String) :=
  if p.exitCode == 0 then some (parseWarnings p.stderrOut) else none

/-! ## `core.go`: `Transpiler.Check` arguments and the `check.Run` call (C3)

`Transpiler.Check` (core.go:93–100) builds
`[inputFile, "--board", board, "--check"]` plus the optional flags.
`check.Run` (the check command in src/cli/internal/build/build.go, second
unit, lines 546–562) reads the file's bytes and calls
`transpiler.Check(string(srcBytes), filepath.Base(goFile), board, pkgNames)`,
so the can-be-seen-in-source actual parameters are: file CONTENTS in the
`inputFile` slot, the file's base name in the `board` slot, and the project
board in the `libsDir` slot. -/

/-- Argument list built by `Transpiler.Check`. -/
def checkArgs (inputFile board libsDir : String) (pkgNames : List String) :
    List String :=
  let args := [inputFile, "--board", board, "--check"]
  let args := if libsDir == "" then args else args ++ ["--libs-dir", libsDir]
  if pkgNames.length > 0 then args ++ ["--packages", joinComma pkgNames]
  else args

/-- The per-file core invocation `check.Run` actually performs: its call site
passes `(fileContents, fileBaseName, projectBoard, pkgNames)` positionally
into `Check`'s `(inputFile, board, libsDir, pkgNames)` parameters. -/
def checkRunCoreArgs (fileContents fileBaseName projectBoard : String)
    (pkgNames : List String) : List String :=
  checkArgs fileContents fileBaseName projectBoard pkgNames

/-! ## `build.go`: declared-package gate before transpiling (C4)

Embeds build.Run lines 96–112: the loop over `pkgNames` returns on the
FIRST name for which `pkgmgr.IsInstalled` is false, before the transpile
loop runs.  The filesystem probe `IsInstalled` is modelled as an explicit
`installed` predicate. -/

/-- The error message `build.Run` produces for a missing package. -/
def missingPkgError (name : String) : String :=
  "package " ++ goQuote name ++
    " declared in goduino.json is not installed\n  Run: tsuki pkg install " ++
    name

/-- First declared package missing on disk, in declaration order. -/
def firstMissingPkg (pkgNames : List String) (installed : String → Bool) :
    Option String :=
  pkgNames.find? (fun n => ! installed n)

/-- The package gate plus the set of files subsequently transpiled: on a
missing package the build returns the error immediately (second component)
and transpiles nothing; otherwise every source file proceeds to the
transpile loop. -/
def buildRunGate (pkgNames : List String) (installed : String → Bool)
    (goFiles : List String) : List String × Option String :=
  match firstMissingPkg pkgNames installed with
  | some n => ([], some (missingPkgError n))
  | none => (goFiles, none)

/-! ## `build.go`: `sanitizeSketchName` (C9)

Embeds build.go:321–338.  Go's `for i, r := range name` yields the BYTE
index `i` of each rune, which the digit case compares against 0. -/

/-- One step per rune: letters and `_` are kept, digits are kept when the
byte index is positive, anything else becomes `_` when output exists. -/
def sanitizeAux : List Char → Nat → List Char → List Char
  | [], _, acc => acc
  | c :: rest, i, acc =>
    let n := c.toNat
    let acc' :=
      if (97 ≤ n && n ≤ 122) || (65 ≤ n && n ≤ 90) || n == 95 then acc ++ [c]
      else if 48 ≤ n && n ≤ 57 then (if i > 0 then acc ++ [c] else acc)
      else (if acc.length > 0 then acc ++ ['_'] else acc)
    sanitizeAux rest (i + c.utf8Size) acc'

/-- `sanitizeSketchName` from build.go. -/
def sanitizeSketchName (name : String) : String :=
  String.mk (sanitizeAux name.data 0 [])

/-! ## Board→FQBN tables (C5, C10)

`build.go:461–480` (compile path) and `flash.go:28–39` (upload path) each
hold a `map[string]string`; lookups go through `strings.ToLower(id)`.
Association lists with pairwise-distinct keys model the Go maps; entries are
listed in source order. -/

/-- The compile path's table (`boardFQBN` in build.go). -/
def buildBoardTable : List (String × String) :=
  [("uno",      "arduino:avr:uno"),
   ("nano",     "arduino:avr:nano"),
   ("mega",     "arduino:avr:mega"),
   ("leonardo", "arduino:avr:leonardo"),
   ("micro",    "arduino:avr:micro"),
   ("due",      "arduino:sam:arduino_due_x"),
   ("mkr1000",  "arduino:samd:mkr1000"),
   ("esp32",    "esp32:esp32:esp32"),
   ("esp8266",  "esp8266:esp8266:generic"),
   ("pico",     "rp2040:rp2040:rpipico"),
   ("teensy40", "teensy:avr:teensy40")]

/-- The upload path's table (`boardFQBN` in flash.go). -/
def flashBoardTable : List (String × String) :=
  [("uno",      "arduino:avr:uno"),
   ("nano",     "arduino:avr:nano"),
   ("mega",     "arduino:avr:mega"),
   ("leonardo", "arduino:avr:leonardo"),
   ("micro",    "arduino:avr:micro"),
   ("due",      "arduino:sam:arduino_due_x"),
   ("esp32",    "esp32:esp32:esp32"),
   ("esp8266",  "esp8266:esp8266:generic"),
   ("pico",     "rp2040:rp2040:rpipico")]

/-- `boardFQBN(id)` on the compile path (build.go:461). -/
def buildBoardFQBN (id : String) : Option String :=
  alookup buildBoardTable (strLower id)

/-- `boardFQBN[strings.ToLower(board)]` on the upload path (flash.go:121). -/
def flashBoardFQBN (id : String) : Option String :=
  alookup flashBoardTable (strLower id)

/-- Error `compileArduinoCLI` wraps around a failed lookup (build.go:274). -/
def compileUnknownBoardError (board : String) : String :=
  "unknown board " ++ goQuote board ++ " — run `tsuki boards list`"

/-- Error `uploadArduinoCLI` produces on a failed lookup (flash.go:123). -/
def uploadUnknownBoardError (board : String) : String :=
  "unknown board " ++ goQuote board ++ " — run `tsuki boards list` for the full list"

/-- Board resolution on the compile path: the FQBN, or the hard error. -/
def compileBoardResolution (board : String) : Except String String :=
  match buildBoardFQBN board with
  | some f => .ok f
  | none => .error (compileUnknownBoardError board)

/-- Board resolution on the upload path: the FQBN, or the hard error. -/
def uploadBoardResolution (board : String) : Except String String :=
  match flashBoardFQBN board with
  | some f => .ok f
  | none => .error (uploadUnknownBoardError board)

/-! ## `flash.go`: serial-port auto-detection (C6)

Embeds `uploadArduinoCLI` lines 126–137 and `detectPortArduinoCLI` lines
212–230.  The output of `arduino-cli board list` is an explicit input. -/

/-- One loop iteration of `detectPortArduinoCLI`: lines whose first
whitespace-separated field starts with `/dev/` or `COM` yield that field;
all other lines are skipped. -/
def detectCandidate (line : String) : Option String :=
  match strFields line with
  | [] => none
  | p :: _ =>
    if strStartsWith p "/dev/" || strStartsWith p "COM" then some p else none

/-- The fixed failure message of `detectPortArduinoCLI` (flash.go:229). -/
def detectPortError : String := "no board found on any serial port"

/-- `detectPortArduinoCLI`: first candidate over the output lines, else the
fixed error.  It receives no board information at all. -/
def detectPortArduinoCLI (boardListOut : String) : Except String String :=
  match (splitLines boardListOut).findSome? detectCandidate with
  | some p => .ok p
  | none => .error detectPortError

/-- Port resolution in `uploadArduinoCLI`: the explicit `--port` when given,
otherwise auto-detection. -/
def uploadPortResolution (explicitPort : String) (boardListOut : String) :
    Except String String :=
  if explicitPort == "" then detectPortArduinoCLI boardListOut
  else .ok explicitPort

/-! ## `toml_decode.go` + `config.go`: registry merging (C7)

Embeds `Config.ResolvedRegistryURLs` (src/unnamed/part_004:110–140) and
`FetchAllRegistries` (src/cli/internal/manifest/toml_decode.go:520–562).
Network fetches are explicit inputs: each resolved URL is paired with
`some packages` (fetch succeeded) or `none` (registry unavailable). -/

/-- `RegistryPackage` from toml_decode.go. -/
structure RegistryPackage where
  description : String
  author      : String
  latest      : String
  versions    : List (String × String)
deriving DecidableEq

/-- The built-in default registry URL (config.go:22). -/
def defaultRegistryURL : String :=
  "https://raw.githubusercontent.com/s7lver2/tsuki/refs/heads/main/pkg/packages.json"

/-- The `add` closure of `ResolvedRegistryURLs`: trim, skip empty, dedup. -/
def addURL (acc : List String) (u : String) : List String :=
  let u := strTrim u
  if u == "" || acc.contains u then acc else acc ++ [u]

/-- `Config.ResolvedRegistryURLs`: env override first, then the configured
list, then the legacy single URL, defaulting when nothing resolved. -/
def resolvedRegistryURLs (envRegistry : String) (registryURLs : List String)
    (legacyURL : String) : List String :=
  let urls : List String := []
  let urls := if envRegistry == "" then urls else addURL urls envRegistry
  let urls := registryURLs.foldl addURL urls
  let urls := addURL urls legacyURL
  if urls.isEmpty then addURL urls defaultRegistryURL else urls

/-- State accumulated by `FetchAllRegistries`: merged package map, the
name→owning-registry map, the warnings printed so far, and the
successfully-fetched URLs. -/
structure MergeState where
  merged   : List (String × RegistryPackage)
  srcMap   : List (String × String)
  warnings : List String
  okURLs   : List String
deriving DecidableEq

/-- The shadowing diagnostic (toml_decode.go:544–547). -/
def shadowWarning (name regURL ownerURL : String) : String :=
  "package " ++ goQuote name ++ " from " ++ regURL ++
    " shadowed by earlier registry " ++ ownerURL

/-- One package entry of one registry: an already-present name only emits
the shadow warning; a fresh name is recorded with its owning registry. -/
def mergePkg (url : String) (st : MergeState)
    (entry : String × RegistryPackage) : MergeState :=
  match alookup st.merged entry.1 with
  | some _ =>
    { st with warnings := st.warnings ++
        [shadowWarning entry.1 url ((alookup st.srcMap entry.1).getD "")] }
  | none =>
    { st with merged := st.merged ++ [entry],
              srcMap := st.srcMap ++ [(entry.1, url)] }

/-- One registry in resolved order: a failed fetch is skipped (with a
separate availability warning, not modelled); a successful fetch folds its
packages into the state. -/
def mergeRegistry (st : MergeState)
    (reg : String × Option (List (String × RegistryPackage))) : MergeState :=
  match reg.2 with
  | none => st
  | some pkgs =>
    pkgs.foldl (mergePkg reg.1) { st with okURLs := st.okURLs ++ [reg.1] }

/-- `FetchAllRegistries` over the resolved URL list with explicit fetch
outcomes. -/
def fetchAllRegistries
    (fetches : List (String × Option (List (String × RegistryPackage)))) :
    MergeState :=
  fetches.foldl mergeRegistry ⟨[], [], [], []⟩

/-- Left-biased choice, for stating lookup lemmas. -/
def oalt {α : Type} : Option α → Option α → Option α
  | some a, _ => some a
  | none, b => b

/-! ## Round-trip determinism of the transpile pipeline (C8)

Modelled from the spec: `tsuki-core` — the four-stage transpiler pipeline —
is a Rust binary that is not under src/ (only the Go CLI that shells out to
it is).  §4.4 states "the generator is a pure function of (AST, PackageMaps)
→ (output text, diagnostics)" and §5 states each invocation is a separate,
stateless process; so the process boundary is modelled as a pure function
from the argument list built by `transpileArgs` to the produced C++ bytes. -/

/-- Two consecutive runs of the core on the same request, as performed by
running the build twice: each run is the pure `corefn` applied to the
argument list the CLI constructs for the request. -/
def transpileTwice (corefn : List String → String) (req : TranspileRequest) :
    String × String :=
  (corefn (transpileArgs req), corefn (transpileArgs req))

end Tsuki

namespace Tsuki

/-! ## Helper lemmas -/

theorem parseWarnings_foldl (lines : List String) (acc : List String) :
    lines.foldl
      (fun w line =>
        if strContains (strLower line) "warning" then w ++ [strTrim line] else w)
      acc
    = acc ++ (lines.filter
        (fun line => strContains (strLower line) "warning")).map strTrim := by
  induction lines generalizing acc with
  | nil => simp
  | cons l rest ih =>
    by_cases h : strContains (strLower l) "warning" = true <;>
      simp [List.filter, h, ih]

/-- `parseWarnings` as filter-then-trim. -/
theorem parseWarnings_eq (out : String) :
    parseWarnings out =
      ((splitLines out).filter
        (fun line => strContains (strLower line) "warning")).map strTrim := by
  simpa using parseWarnings_foldl (splitLines out) []

/-- A successful association-list lookup means the key is present. -/
theorem alookup_some_key_mem {α : Type} (t : List (String × α)) (k : String)
    (v : α) (h : alookup t k = some v) : k ∈ t.map Prod.fst := by
  induction t with
  | nil => simp [alookup] at h
  | cons p rest ih =>
    rcases p with ⟨key, val⟩
    simp only [alookup] at h
    split at h
    · rename_i hk
      simp only [beq_iff_eq] at hk
      simp [hk]
    · simpa using Or.inr (ih h)

/-- A port the scan accepts is the line's first field and carries one of the
two recognised prefixes. -/
theorem detectCandidate_some (line p : String)
    (h : detectCandidate line = some p) :
    (strStartsWith p "/dev/" || strStartsWith p "COM") = true
    ∧ strFields line ≠ [] ∧ (strFields line).head? = some p := by
  unfold detectCandidate at h
  rcases hf : strFields line with _ | ⟨q, rest⟩
  · rw [hf] at h; exact absurd h (by simp)
  · rw [hf] at h
    by_cases hp : (strStartsWith q "/dev/" || strStartsWith q "COM") = true
    · simp only [hp, if_true] at h
      obtain rfl := Option.some.inj h
      exact ⟨hp, by simp, rfl⟩
    · simp [hp] at h

@[simp] theorem oalt_none_left {α : Type} (x : Option α) : oalt none x = x := rfl

@[simp] theorem oalt_none_right {α : Type} (x : Option α) : oalt x none = x := by
  cases x <;> rfl

@[simp] theorem oalt_some_left {α : Type} (a : α) (x : Option α) :
    oalt (some a) x = some a := rfl

theorem alookup_append {α : Type} (l1 l2 : List (String × α)) (k : String) :
    alookup (l1 ++ l2) k = oalt (alookup l1 k) (alookup l2 k) := by
  induction l1 with
  | nil => simp [alookup]
  | cons p rest ih =>
    rcases p with ⟨key, v⟩
    by_cases h : k == key <;> simp [alookup, h, ih]

/-- Processing a fresh package name extends both maps. -/
theorem mergePkg_fresh (url k : String) (v : RegistryPackage) (st : MergeState)
    (hm : alookup st.merged k = none) :
    mergePkg url st (k, v)
      = { st with merged := st.merged ++ [(k, v)],
                  srcMap := st.srcMap ++ [(k, url)] } := by
  unfold mergePkg
  simp [hm]

/-- Processing an already-present package name only records the warning. -/
theorem mergePkg_dup (url k : String) (v w : RegistryPackage) (st : MergeState)
    (hm : alookup st.merged k = some w) :
    mergePkg url st (k, v)
      = { st with warnings := st.warnings ++
            [shadowWarning k url ((alookup st.srcMap k).getD "")] } := by
  unfold mergePkg
  simp [hm]

/-- Folding one registry's packages: the merged map afterwards answers a
lookup with the earlier binding when one exists, else the registry's own
first binding. -/
theorem mergePkg_foldl_merged (url : String)
    (pkgs : List (String × RegistryPackage)) (st : MergeState) (n : String) :
    alookup ((pkgs.foldl (mergePkg url) st).merged) n
      = oalt (alookup st.merged n) (alookup pkgs n) := by
  induction pkgs generalizing st with
  | nil => simp [alookup]
  | cons e rest ih =>
    rcases e with ⟨k, v⟩
    rw [List.foldl_cons]
    rcases hm : alookup st.merged k with _ | w
    · rw [mergePkg_fresh url k v st hm, ih]
      by_cases hn : (n == k) = true
      · obtain rfl := beq_iff_eq.mp hn
        simp [alookup_append, alookup, hm]
      · simp [alookup_append, alookup, hn]
    · rw [mergePkg_dup url k v w st hm, ih]
      by_cases hn : (n == k) = true
      · obtain rfl := beq_iff_eq.mp hn
        simp [alookup, hm]
      · simp [alookup, hn]

/-- The same fold on the ownership map, under the invariant that the merged
map and the ownership map bind the same keys (true of every reachable
state). -/
theorem mergePkg_foldl_srcMap (url : String)
    (pkgs : List (String × RegistryPackage)) (st : MergeState) (n : String)
    (hinv : ∀ k, alookup st.merged k = none ↔ alookup st.srcMap k = none) :
    alookup ((pkgs.foldl (mergePkg url) st).srcMap) n
      = oalt (alookup st.srcMap n)
          ((alookup pkgs n).map fun _ => url) := by
  induction pkgs generalizing st with
  | nil => simp [alookup]
  | cons e rest ih =>
    rcases e with ⟨k, v⟩
    rw [List.foldl_cons]
    rcases hm : alookup st.merged k with _ | w
    · have hs : alookup st.srcMap k = none := (hinv k).mp hm
      rw [mergePkg_fresh url k v st hm]
      have hinv' : ∀ j,
          alookup (st.merged ++ [(k, v)]) j = none
            ↔ alookup (st.srcMap ++ [(k, url)]) j = none := by
        intro j
        rw [alookup_append, alookup_append]
        by_cases hj : (j == k) = true
        · obtain rfl := beq_iff_eq.mp hj
          rcases alookup st.merged j <;> rcases alookup st.srcMap j <;>
            simp [alookup, oalt]
        · simp [alookup, hj, hinv j]
      refine (ih { st with merged := st.merged ++ [(k, v)],
                           srcMap := st.srcMap ++ [(k, url)] } hinv').trans ?_
      by_cases hn : (n == k) = true
      · obtain rfl := beq_iff_eq.mp hn
        simp [alookup_append, alookup, hs]
      · simp [alookup_append, alookup, hn]
    · rw [mergePkg_dup url k v w st hm]
      refine (ih { st with warnings := st.warnings ++
          [shadowWarning k url ((alookup st.srcMap k).getD "")] } hinv).trans ?_
      by_cases hn : (n == k) = true
      · obtain rfl := beq_iff_eq.mp hn
        rcases hsn : alookup st.srcMap n with _ | u
        · exact absurd hm (by simp [(hinv n).mpr hsn])
        · simp [alookup, hsn]
      · simp [alookup, hn]

/-- Warnings only grow along the fold. -/
theorem mergePkg_foldl_warnings_mono (url : String)
    (pkgs : List (String × RegistryPackage)) (st : MergeState) (w : String)
    (h : w ∈ st.warnings) :
    w ∈ (pkgs.foldl (mergePkg url) st).warnings := by
  induction pkgs generalizing st with
  | nil => simpa using h
  | cons e rest ih =>
    rcases e with ⟨k, v⟩
    rw [List.foldl_cons]
    rcases hm : alookup st.merged k with _ | w'
    · rw [mergePkg_fresh url k v st hm]
      exact ih _ h
    · rw [mergePkg_dup url k v w' st hm]
      exact ih _ (by simp [h])

/-- A name already owned by an earlier registry that appears again in a
later registry's package list produces the shadow warning naming the later
registry and the owner. -/
theorem mergePkg_foldl_shadow (url : String)
    (pkgs : List (String × RegistryPackage)) (st : MergeState)
    (n u : String) (w : RegistryPackage) (p : RegistryPackage)
    (hm : alookup st.merged n = some w)
    (hs : alookup st.srcMap n = some u)
    (hp : alookup pkgs n = some p) :
    shadowWarning n url u ∈ (pkgs.foldl (mergePkg url) st).warnings := by
  induction pkgs generalizing st with
  | nil => simp [alookup] at hp
  | cons e rest ih =>
    rcases e with ⟨k, v⟩
    rw [List.foldl_cons]
    by_cases hn : (n == k) = true
    · obtain rfl := beq_iff_eq.mp hn
      rw [mergePkg_dup url n v w st hm]
      apply mergePkg_foldl_warnings_mono
      simp [hs]
    · have hp' : alookup rest n = some p := by
        simpa [alookup, hn] using hp
      rcases hkk : alookup st.merged k with _ | w'
      · rw [mergePkg_fresh url k v st hkk]
        refine ih _ ?_ ?_ hp'
        · rw [alookup_append]
          simp [alookup, hn, hm]
        · rw [alookup_append]
          simp [alookup, hn, hs]
      · rw [mergePkg_dup url k v w' st hkk]
        exact ih _ hm hs hp'

end Tsuki

/-- **C1** — For every transpile request the core binary receives exactly
`<input> <output> --board <id>`, then `--source-map` iff the source-map flag
is set, then `--libs-dir <path>` iff a libs directory is given, then
`--packages` with the comma-joined package names iff the package list is
non-empty, in that order and with no other arguments. -/
theorem C1_transpile_args (req : Tsuki.TranspileRequest) :
    Tsuki.transpileArgs req =
      [req.inputFile, req.outputFile, "--board", req.board]
      ++ (if req.sourceMap then ["--source-map"] else [])
      ++ (if req.libsDir ≠ "" then ["--libs-dir", req.libsDir] else [])
      ++ (if req.pkgNames ≠ [] then
            ["--packages", Tsuki.joinComma req.pkgNames] else []) := by
  unfold Tsuki.transpileArgs
  rcases req with ⟨i, o, b, sm, ld, pk⟩
  cases sm <;> rcases pk with _ | ⟨p, ps⟩ <;>
    rcases hld : ld == "" with _ | _ <;>
      simp_all [List.append_assoc, beq_iff_eq]

/-- **C2** — Transpile fails iff the core exits non-zero; success/failure is a
function of the exit code alone (never of output text); on zero exit the
result is exactly the parsed warnings, and every stderr line containing
"warning" case-insensitively is returned (trimmed) as a warning. -/
theorem C2_exit_code_truth (p : Tsuki.ProcResult) :
    ((Tsuki.transpileOutcome p).isNone ↔ p.exitCode ≠ 0)
    ∧ (p.exitCode = 0 →
        Tsuki.transpileOutcome p = some (Tsuki.parseWarnings p.stderrOut))
    ∧ (∀ s', (Tsuki.transpileOutcome ⟨p.exitCode, s'⟩).isSome
              = (Tsuki.transpileOutcome p).isSome)
    ∧ (∀ line ∈ Tsuki.splitLines p.stderrOut,
        Tsuki.strContains (Tsuki.strLower line) "warning" = true →
        Tsuki.strTrim line ∈ Tsuki.parseWarnings p.stderrOut) := by
  refine ⟨?_, ?_, ?_, ?_⟩
  · unfold Tsuki.transpileOutcome
    by_cases h : p.exitCode = 0 <;> simp [h]
  · intro h; simp [Tsuki.transpileOutcome, h]
  · intro s'; unfold Tsuki.transpileOutcome
    by_cases h : p.exitCode = 0 <;> simp [h]
  · intro line hline hwarn
    rw [Tsuki.parseWarnings_eq]
    exact List.mem_map_of_mem _ (List.mem_filter.mpr ⟨hline, hwarn⟩)

/-- Witness for C2 at a concrete run: exit 0 with one warning line. -/
theorem C2_exit_code_truth_witness :
    Tsuki.transpileOutcome ⟨0, "warning: unused\nok"⟩
      = some ["warning: unused"]
    ∧ Tsuki.strTrim "warning: unused"
        ∈ Tsuki.parseWarnings "warning: unused\nok" := by
  have h := C2_exit_code_truth ⟨0, "warning: unused\nok"⟩
  refine ⟨(h.2.1 rfl).trans (by decide), ?_⟩
  exact h.2.2.2 "warning: unused" (by decide) (by decide)

/-- **C3** — The check command does NOT invoke the core with the file's path
and the project's board id: at a project with one source file `main.go`
containing `package main` and board `uno`, the core receives the file
CONTENTS as its input argument, the base name `main.go` as the `--board`
value, and the project board `uno` as the `--libs-dir` value. -/
theorem C3_check_invocation_bug :
    Tsuki.checkRunCoreArgs "package main" "main.go" "uno" []
      = ["package main", "--board", "main.go", "--check", "--libs-dir", "uno"]
    ∧ (Tsuki.checkRunCoreArgs "package main" "main.go" "uno" []).get? 2
        ≠ some "uno" := by
  decide

/-- **C4 counterexample** — with two declared packages `alpha` and `omega`
both missing, the build error names only `alpha`; it does not cover the
missing package `omega`, refuting "one aggregate error that covers every
missing declared package". -/
theorem C4_missing_pkg_counterexample :
    Tsuki.buildRunGate ["alpha", "omega"] (fun _ => false) ["main.go"]
      = ([], some (Tsuki.missingPkgError "alpha"))
    ∧ Tsuki.strContains (Tsuki.missingPkgError "alpha") "omega" = false := by
  decide

/-- **C4 (amended)** — When any declared package is missing on disk, the
build fails fast before transpiling any file, with an error naming the FIRST
missing declared package in declaration order (later missing packages are
not included in the error). -/
theorem C4_missing_pkg_fail_fast (pkgNames : List String)
    (installed : String → Bool) (goFiles : List String) (n : String)
    (h : Tsuki.firstMissingPkg pkgNames installed = some n) :
    Tsuki.buildRunGate pkgNames installed goFiles
      = ([], some (Tsuki.missingPkgError n)) := by
  unfold Tsuki.buildRunGate
  rw [h]

/-- Witness for C4 (amended): one missing package aborts the build with no
file transpiled. -/
theorem C4_missing_pkg_fail_fast_witness :
    Tsuki.buildRunGate ["ws2812"] (fun _ => false) ["main.go", "util.go"]
      = ([], some (Tsuki.missingPkgError "ws2812")) :=
  C4_missing_pkg_fail_fast ["ws2812"] (fun _ => false) ["main.go", "util.go"]
    "ws2812" (by decide)

/-- **C9** — `sanitizeSketchName` can return a name that begins with a digit,
contradicting its own doc comment ("cannot start with a digit"): on input
`#5` the digit `5` sits at byte index 1, so the `i > 0` guard admits it even
though nothing has been written yet. -/
theorem C9_sanitize_digit_start_bug :
    Tsuki.sanitizeSketchName "#5" = "5"
    ∧ (Tsuki.sanitizeSketchName "#5").data.head? = some '5'
    ∧ '5'.isDigit = true := by
  decide

/-- **C5 counterexample** — the unknown-board errors do NOT name the valid
board ids: for the unknown id `foo`, both paths fail, but neither message
contains `uno` (nor any other valid id); they only direct the user to
`tsuki boards list`. -/
theorem C5_board_error_counterexample :
    Tsuki.buildBoardFQBN "foo" = none
    ∧ Tsuki.flashBoardFQBN "foo" = none
    ∧ Tsuki.buildBoardFQBN "uno" = some "arduino:avr:uno"
    ∧ Tsuki.strContains (Tsuki.compileUnknownBoardError "foo") "uno" = false
    ∧ Tsuki.strContains (Tsuki.uploadUnknownBoardError "foo") "uno" = false := by
  decide

/-- **C5 (amended)** — A board id in neither table makes both the compile
path and the upload path fail with a hard error that quotes the offending id
and directs the user to `tsuki boards list`; the error does not enumerate
the valid board ids. -/
theorem C5_unknown_board_hard_error (board : String)
    (hb : Tsuki.buildBoardFQBN board = none)
    (hf : Tsuki.flashBoardFQBN board = none) :
    Tsuki.compileBoardResolution board
        = .error (Tsuki.compileUnknownBoardError board)
    ∧ Tsuki.uploadBoardResolution board
        = .error (Tsuki.uploadUnknownBoardError board) := by
  constructor
  · unfold Tsuki.compileBoardResolution
    rw [hb]
  · unfold Tsuki.uploadBoardResolution
    rw [hf]

/-- Witness for C5 (amended) at the unknown board `foo`. -/
theorem C5_unknown_board_hard_error_witness :
    Tsuki.compileBoardResolution "foo"
        = .error (Tsuki.compileUnknownBoardError "foo")
    ∧ Tsuki.uploadBoardResolution "foo"
        = .error (Tsuki.uploadUnknownBoardError "foo") :=
  C5_unknown_board_hard_error "foo" (by decide) (by decide)

/-- **C10 counterexample** — the two board→FQBN tables disagree on their
domains: the compile path accepts `mkr1000` (and `teensy40`) while the
upload path rejects it. -/
theorem C10_fqbn_tables_counterexample :
    Tsuki.buildBoardFQBN "mkr1000" = some "arduino:samd:mkr1000"
    ∧ Tsuki.flashBoardFQBN "mkr1000" = none
    ∧ Tsuki.buildBoardFQBN "teensy40" = some "teensy:avr:teensy40"
    ∧ Tsuki.flashBoardFQBN "teensy40" = none := by
  decide

/-- **C10 (amended)** — Every board id the upload table accepts is accepted
by the compile table with the same FQBN; the ids the compile table accepts
beyond those are exactly `mkr1000` and `teensy40`. -/
theorem C10_fqbn_tables_agree_on_upload_domain :
    (∀ id f, Tsuki.flashBoardFQBN id = some f → Tsuki.buildBoardFQBN id = some f)
    ∧ (∀ id, (Tsuki.buildBoardFQBN id).isSome → (Tsuki.flashBoardFQBN id).isNone →
        Tsuki.strLower id = "mkr1000" ∨ Tsuki.strLower id = "teensy40") := by
  constructor
  · intro id f h
    unfold Tsuki.flashBoardFQBN at h
    unfold Tsuki.buildBoardFQBN
    generalize hk : Tsuki.strLower id = k at *
    have hmem := Tsuki.alookup_some_key_mem _ _ _ h
    simp [Tsuki.flashBoardTable] at hmem
    rcases hmem with rfl | rfl | rfl | rfl | rfl | rfl | rfl | rfl | rfl <;>
      simp_all [Tsuki.flashBoardTable, Tsuki.buildBoardTable, Tsuki.alookup]
  · intro id h1 h2
    unfold Tsuki.buildBoardFQBN at h1
    unfold Tsuki.flashBoardFQBN at h2
    generalize hk : Tsuki.strLower id = k at *
    rcases ho : Tsuki.alookup Tsuki.buildBoardTable k with _ | f
    · rw [ho] at h1; simp at h1
    have hmem := Tsuki.alookup_some_key_mem _ _ _ ho
    simp [Tsuki.buildBoardTable] at hmem
    rcases hmem with rfl | rfl | rfl | rfl | rfl | rfl | rfl | rfl | rfl | rfl | rfl <;>
      simp_all [Tsuki.flashBoardTable, Tsuki.buildBoardTable, Tsuki.alookup]

/-- **C6 counterexample** — auto-detection performs no vendor/product
matching: a line whose identifiers match no board profile is still selected
because its first field starts with `/dev/`; and the no-match failure is the
fixed message `no board found on any serial port`, which does not list the
detected ports or their raw identifiers (here `usb-1234:5678`). -/
theorem C6_detect_counterexample :
    Tsuki.detectPortArduinoCLI "/dev/ttyUSB0 serial 9999:9999 UnknownDevice"
      = .ok "/dev/ttyUSB0"
    ∧ Tsuki.detectPortArduinoCLI "usb-1234:5678 SomeDevice"
      = .error Tsuki.detectPortError
    ∧ Tsuki.strContains Tsuki.detectPortError "1234:5678" = false
    ∧ Tsuki.strContains Tsuki.detectPortError "usb-1234:5678" = false := by
  refine ⟨rfl, rfl, by decide, by decide⟩

/-- **C6 (amended)** — Auto-detection runs only when no explicit port is
given; it selects the first line of `arduino-cli board list` output whose
first whitespace-separated field starts with `/dev/` or `COM`, independent
of the board's vendor/product identifiers; when no line qualifies it fails
with the fixed message `no board found on any serial port`, which lists no
ports. -/
theorem C6_port_resolution (explicitPort out : String) :
    (explicitPort ≠ "" →
      Tsuki.uploadPortResolution explicitPort out = .ok explicitPort)
    ∧ (Tsuki.uploadPortResolution "" out = Tsuki.detectPortArduinoCLI out)
    ∧ ((Tsuki.splitLines out).findSome? Tsuki.detectCandidate = none →
        Tsuki.detectPortArduinoCLI out = .error Tsuki.detectPortError)
    ∧ (∀ p, (Tsuki.splitLines out).findSome? Tsuki.detectCandidate = some p →
        Tsuki.detectPortArduinoCLI out = .ok p
        ∧ (Tsuki.strStartsWith p "/dev/" || Tsuki.strStartsWith p "COM") = true) := by
  refine ⟨?_, ?_, ?_, ?_⟩
  · intro h
    unfold Tsuki.uploadPortResolution
    simp [h]
  · unfold Tsuki.uploadPortResolution
    simp
  · intro h
    unfold Tsuki.detectPortArduinoCLI
    rw [h]
  · intro p h
    refine ⟨by unfold Tsuki.detectPortArduinoCLI; rw [h], ?_⟩
    obtain ⟨line, _, hline⟩ := List.exists_of_findSome?_eq_some h
    exact (Tsuki.detectCandidate_some line p hline).1

/-- Witness for C6 at concrete inputs: an explicit port short-circuits the
scan, and an ACM device line is picked up. -/
theorem C6_port_resolution_witness :
    Tsuki.uploadPortResolution "/dev/ttyS9" "whatever" = .ok "/dev/ttyS9"
    ∧ Tsuki.detectPortArduinoCLI "/dev/ttyACM0 serial 2341:0043 Uno"
        = .ok "/dev/ttyACM0" := by
  constructor
  · exact (C6_port_resolution "/dev/ttyS9" "whatever").1 (by decide)
  · exact ((C6_port_resolution "" "/dev/ttyACM0 serial 2341:0043 Uno").2.2.2
      "/dev/ttyACM0" rfl).1

/-- **C7** — When two configured registries, in resolved registry-URL order,
both define the same package name, the merged result keeps the entry of the
earlier registry (first wins), the later entry is ignored, and the shadow
diagnostic naming the shadowed package is emitted. -/
theorem C7_registry_first_wins (url1 url2 n : String)
    (r1 r2 : List (String × Tsuki.RegistryPackage))
    (p1 p2 : Tsuki.RegistryPackage)
    (h1 : Tsuki.alookup r1 n = some p1)
    (h2 : Tsuki.alookup r2 n = some p2) :
    Tsuki.alookup
        (Tsuki.fetchAllRegistries [(url1, some r1), (url2, some r2)]).merged n
      = some p1
    ∧ Tsuki.shadowWarning n url2 url1
        ∈ (Tsuki.fetchAllRegistries [(url1, some r1), (url2, some r2)]).warnings := by
  have hinv0 : ∀ k,
      Tsuki.alookup (Tsuki.MergeState.mk [] [] [] [url1]).merged k = none
        ↔ Tsuki.alookup (Tsuki.MergeState.mk [] [] [] [url1]).srcMap k = none := by
    intro k
    simp [Tsuki.alookup]
  have hm1 : Tsuki.alookup
      (r1.foldl (Tsuki.mergePkg url1) ⟨[], [], [], [url1]⟩).merged n
        = some p1 := by
    rw [Tsuki.mergePkg_foldl_merged]
    simp [Tsuki.alookup, h1]
  have hs1 : Tsuki.alookup
      (r1.foldl (Tsuki.mergePkg url1) ⟨[], [], [], [url1]⟩).srcMap n
        = some url1 := by
    rw [Tsuki.mergePkg_foldl_srcMap _ _ _ _ hinv0]
    simp [Tsuki.alookup, h1]
  have key : Tsuki.fetchAllRegistries [(url1, some r1), (url2, some r2)]
      = r2.foldl (Tsuki.mergePkg url2)
          { r1.foldl (Tsuki.mergePkg url1) ⟨[], [], [], [url1]⟩ with
            okURLs :=
              (r1.foldl (Tsuki.mergePkg url1) ⟨[], [], [], [url1]⟩).okURLs
                ++ [url2] } := rfl
  constructor
  · rw [key, Tsuki.mergePkg_foldl_merged]
    simp [hm1]
  · rw [key]
    exact Tsuki.mergePkg_foldl_shadow url2 r2 _ n url1 p1 p2 hm1 hs1 h2

/-- Witness for C7: two concrete registries both defining `ws2812`. -/
theorem C7_registry_first_wins_witness :
    Tsuki.alookup
        (Tsuki.fetchAllRegistries
          [("https://r1/registry.json",
              some [("ws2812", ⟨"neopixel", "a", "1.0", [("1.0", "u1")]⟩)]),
           ("https://r2/registry.json",
              some [("ws2812", ⟨"other", "b", "2.0", [("2.0", "u2")]⟩)])]).merged
        "ws2812"
      = some ⟨"neopixel", "a", "1.0", [("1.0", "u1")]⟩
    ∧ Tsuki.shadowWarning "ws2812" "https://r2/registry.json"
          "https://r1/registry.json"
        ∈ (Tsuki.fetchAllRegistries
          [("https://r1/registry.json",
              some [("ws2812", ⟨"neopixel", "a", "1.0", [("1.0", "u1")]⟩)]),
           ("https://r2/registry.json",
              some [("ws2812", ⟨"other", "b", "2.0", [("2.0", "u2")]⟩)])]).warnings :=
  C7_registry_first_wins "https://r1/registry.json" "https://r2/registry.json"
    "ws2812"
    [("ws2812", ⟨"neopixel", "a", "1.0", [("1.0", "u1")]⟩)]
    [("ws2812", ⟨"other", "b", "2.0", [("2.0", "u2")]⟩)]
    ⟨"neopixel", "a", "1.0", [("1.0", "u1")]⟩
    ⟨"other", "b", "2.0", [("2.0", "u2")]⟩
    (by decide) (by decide)

/-- **C8** — Round-trip determinism of the transpile pipeline: two runs of
the core on the same request (the core being, per the spec, a pure,
stateless function of the argument list the CLI constructs) produce
byte-identical output. -/
theorem C8_roundtrip_determinism (corefn : List String → String)
    (req : Tsuki.TranspileRequest) :
    (Tsuki.transpileTwice corefn req).1 = (Tsuki.transpileTwice corefn req).2 :=
  rfl

/-- Witness for C10 at a concrete shared board id. -/
theorem C10_fqbn_tables_agree_on_upload_domain_witness :
    Tsuki.buildBoardFQBN "pico" = some "rp2040:rp2040:rpipico" :=
  C10_fqbn_tables_agree_on_upload_domain.1 "pico" "rp2040:rp2040:rpipico"
    (by decide)
